import Mathlib

/-!
Shallow embedding of the sales-bonus analytics pipeline (src/src/main.js).

JavaScript numbers are modelled as rationals (ℚ); fields that the code
guards with falsy checks for absence are modelled with `Option`.
`Math.round` is modelled as `fun x => ⌊x + 1/2⌋` (halves round toward +∞),
which is its behaviour on all finite doubles.
-/

namespace SalesBonus

/-- Catalog product card (`data.products` element). -/
structure Product where
  sku : String
  purchase_price : ℚ
  sale_price : ℚ
deriving DecidableEq

/-- Seller card (`data.sellers` element). -/
structure Seller where
  id : String
  first_name : String
  last_name : String
deriving DecidableEq

/-- One line item of a receipt (`record.items` element).  `discount` is
`Option` because the code reads it as `purchase.discount || 0`. -/
structure LineItem where
  sku : String
  discount : Option ℚ
  quantity : ℚ
  sale_price : ℚ
deriving DecidableEq

/-- One purchase record ("receipt").  `total_amount` is `Option` because the
code reads it as `record.total_amount || 0`. -/
structure PurchaseRecord where
  seller_id : String
  items : List LineItem
  total_amount : Option ℚ
  total_discount : Option ℚ
deriving DecidableEq

/-- A dataset field as validation sees it: absent, present but not an
array, or an array of well-typed elements. -/
inductive JField (α : Type) where
  | missing
  | notArray
  | arr (xs : List α)

/-- The raw `data` argument, before validation. -/
structure RawData where
  sellers : JField Seller
  products : JField Product
  purchase_records : JField PurchaseRecord

/-- The raw `options` argument; `none` in a field stands for "absent or not
a function". -/
structure RawOptions where
  calculateRevenue : Option (LineItem → Product → ℚ)
  calculateBonus : Option (ℕ → ℕ → ℚ → ℚ)

/-- Validation failure taxonomy of `analyzeSalesData` (the code throws
`Error` with distinct messages; the spec names them as below). -/
inductive AnalyzeError where
  | invalidInput
  | missingField (field : String)
  | invalidType (field : String)
  | emptyCollection (field : String)
  | missingOptions
  | missingStrategy
deriving DecidableEq

/-- Per-seller mutable accumulator (`sellerStats` element). -/
structure SellerStat where
  id : String
  name : String
  revenue : ℚ
  cost : ℚ
  profit : ℚ
  sales_count : ℕ
  products_sold : List (String × ℚ)
deriving DecidableEq

/-- One output row of the report. -/
structure SellerReport where
  seller_id : String
  name : String
  revenue : ℚ
  profit : ℚ
  sales_count : ℕ
  top_products : List (String × ℚ)
  bonus : ℚ
deriving DecidableEq

/-- `Math.round(x * 100) / 100`: round to 2 decimals, halves toward +∞. -/
def round2 (x : ℚ) : ℚ := ((x * 100 + 1 / 2).floor : ℚ) / 100

/-- `calculateSimpleRevenue(purchase, _product)` from the source: returns 0
when `purchase` is absent or `sale_price`/`quantity` is falsy, defaults a
falsy `discount` to 0, and rounds the result to 2 decimals. -/
def calculateSimpleRevenue (purchase : Option LineItem) (_product : Option Product) : ℚ :=
  match purchase with
  | none => 0
  | some p =>
    if p.sale_price = 0 ∨ p.quantity = 0 then 0
    else
      let discount := p.discount.getD 0
      round2 (p.sale_price * p.quantity * (1 - discount / 100))

/-- `calculateBonusByProfit(index, total, seller)` from the source.
`seller` is `Option (Option ℚ)`: the outer `Option` models an absent
seller object, the inner one a non-numeric `profit` field. -/
def calculateBonusByProfit (index total : ℕ) (seller : Option (Option ℚ)) : ℚ :=
  match seller with
  | none => 0
  | some none => 0
  | some (some profit) =>
    let bonusPercentage : ℚ :=
      if index = 0 then 15 / 100
      else if index = 1 ∨ index = 2 then 10 / 100
      else if index = total - 1 then 0
      else 5 / 100
    round2 (profit * bonusPercentage)

/-- `productIndex[sku]`: object-index lookup; on duplicate SKUs the later
catalog entry wins, so we search the reversed list. -/
def lookupProduct (products : List Product) (sku : String) : Option Product :=
  products.reverse.find? (fun p => p.sku == sku)

/-- `products_sold[sku] += quantity`, creating the entry at the end (object
key insertion order) when absent. -/
def addQty (sku : String) (q : ℚ) : List (String × ℚ) → List (String × ℚ)
  | [] => [(sku, q)]
  | (s, n) :: rest =>
    if s = sku then (s, n + q) :: rest else (s, n) :: addQty sku q rest

/-- Replace the last element satisfying `p` by its image under `f` (the
stats index maps an id to the last stat bearing it, last-write-wins). -/
def updateLast {α : Type} (p : α → Bool) (f : α → α) : List α → List α
  | [] => []
  | x :: xs =>
    if xs.any p then x :: updateLast p f xs
    else if p x then f x :: xs
    else x :: xs

/-- Body of the inner `record.items.forEach` loop: skip unknown SKUs,
compute (and drop) the strategy revenue, add the item cost, record the
quantity. -/
def processItem (calcRev : LineItem → Product → ℚ) (products : List Product)
    (st : SellerStat) (item : LineItem) : SellerStat :=
  match lookupProduct products item.sku with
  | none => st
  | some product =>
    let _itemRevenue := calcRev item product
    { st with
        cost := st.cost + product.purchase_price * item.quantity
        products_sold := addQty item.sku item.quantity st.products_sold }

/-- Body of the outer `data.purchase_records.forEach` loop, applied to the
stat of the record's seller: bump the receipt count, add `total_amount || 0`
to revenue, then process each item. -/
def processRecord (calcRev : LineItem → Product → ℚ) (products : List Product)
    (record : PurchaseRecord) (st : SellerStat) : SellerStat :=
  record.items.foldl (processItem calcRev products)
    { st with
        sales_count := st.sales_count + 1
        revenue := st.revenue + record.total_amount.getD 0 }

/-- The zeroed accumulator of one seller. -/
def initStat (s : Seller) : SellerStat :=
  { id := s.id
    name := s.first_name ++ " " ++ s.last_name
    revenue := 0
    cost := 0
    profit := 0
    sales_count := 0
    products_sold := [] }

/-- Initial zeroed stats, one per seller, in seller-list order. -/
def initStats (sellers : List Seller) : List SellerStat :=
  sellers.map initStat

/-- The records loop: each record updates the stat the index resolves its
`seller_id` to (the last stat with that id), or is skipped. -/
def aggregateRecords (calcRev : LineItem → Product → ℚ) (products : List Product)
    (records : List PurchaseRecord) (stats : List SellerStat) : List SellerStat :=
  records.foldl
    (fun sts record =>
      updateLast (fun st => st.id == record.seller_id)
        (processRecord calcRev products record) sts)
    stats

/-- Sort order of the seller ranking: descending by (unrounded) profit. -/
def profitRel (a b : SellerStat) : Prop := b.profit ≤ a.profit

instance : DecidableRel profitRel := fun a b =>
  inferInstanceAs (Decidable (b.profit ≤ a.profit))

instance : IsTotal SellerStat profitRel :=
  ⟨fun a b => le_total b.profit a.profit⟩

instance : IsTrans SellerStat profitRel :=
  ⟨fun _ _ _ hab hbc => le_trans hbc hab⟩

/-- Sort order of `top_products`: descending by quantity. -/
def qtyRel (a b : String × ℚ) : Prop := b.2 ≤ a.2

instance : DecidableRel qtyRel := fun a b =>
  inferInstanceAs (Decidable (b.2 ≤ a.2))

instance : IsTotal (String × ℚ) qtyRel :=
  ⟨fun a b => le_total b.2 a.2⟩

instance : IsTrans (String × ℚ) qtyRel :=
  ⟨fun _ _ _ hab hbc => le_trans hbc hab⟩

/-- The numeric value of a decimal digit character, if it is one. -/
def charDigit? (c : Char) : Option ℕ :=
  if 48 ≤ c.toNat ∧ c.toNat ≤ 57 then some (c.toNat - 48) else none

/-- Accumulating decimal parse of a character list; `none` on any
non-digit. -/
def digitsVal : List Char → ℕ → Option ℕ
  | [], acc => some acc
  | c :: cs, acc =>
    match charDigit? c with
    | none => none
    | some d => digitsVal cs (acc * 10 + d)

/-- ECMAScript array-index test: a key is an array index iff it is the
canonical decimal string (digits only, no leading zero except "0"
itself) of an integer below 2^32 - 1.  Returns that integer. -/
def arrayIndexKey (s : String) : Option ℕ :=
  match s.data with
  | [] => none
  | c :: cs =>
    if c = Char.ofNat 48 ∧ cs ≠ [] then none
    else
      match digitsVal (c :: cs) 0 with
      | none => none
      | some n => if n < 4294967295 then some n else none

/-- Ascending numeric order on array-index keys, used by the
`Object.entries` enumeration. -/
def entriesRel (a b : String × ℚ) : Prop :=
  (arrayIndexKey a.1).getD 0 ≤ (arrayIndexKey b.1).getD 0

instance : DecidableRel entriesRel := fun a b =>
  inferInstanceAs (Decidable ((arrayIndexKey a.1).getD 0 ≤ (arrayIndexKey b.1).getD 0))

/-- `Object.entries` enumeration order over the quantity map: keys that
are array indices come first, in ascending numeric order, then the
remaining keys in insertion order. -/
def jsEntries (m : List (String × ℚ)) : List (String × ℚ) :=
  List.insertionSort entriesRel (m.filter fun e => (arrayIndexKey e.1).isSome)
    ++ m.filter fun e => !(arrayIndexKey e.1).isSome

/-- Step 7 of the source: build one report row from a ranked stat.
`Object.entries(stat.products_sold)` enumerates in `jsEntries` order. -/
def makeReport (calcBonus : ℕ → ℕ → ℚ → ℚ) (total index : ℕ)
    (st : SellerStat) : SellerReport :=
  { seller_id := st.id
    name := st.name
    revenue := round2 st.revenue
    profit := round2 st.profit
    sales_count := st.sales_count
    top_products := (List.insertionSort qtyRel (jsEntries st.products_sold)).take 10
    bonus := round2 (calcBonus index total st.profit) }

/-- `List.map` with the element's position, starting at `start`. -/
def mapWithIndex {α β : Type} (f : ℕ → α → β) : ℕ → List α → List β
  | _, [] => []
  | i, x :: xs => f i x :: mapWithIndex f (i + 1) xs

/-- Steps 3-7 of the source, after validation has succeeded. -/
def runAnalysis (sellers : List Seller) (products : List Product)
    (records : List PurchaseRecord) (calcRev : LineItem → Product → ℚ)
    (calcBonus : ℕ → ℕ → ℚ → ℚ) : List SellerReport :=
  let stats := aggregateRecords calcRev products records (initStats sellers)
  let withProfit := stats.map fun st => { st with profit := st.revenue - st.cost }
  let sorted := List.insertionSort profitRel withProfit
  mapWithIndex (makeReport calcBonus sorted.length) 0 sorted

/-- The per-field validation loop body: absent, non-array and empty arrays
are rejected in that order. -/
def validateField {α : Type} (name : String) : JField α → Except AnalyzeError (List α)
  | .missing => .error (.missingField name)
  | .notArray => .error (.invalidType name)
  | .arr xs => if xs.isEmpty then .error (.emptyCollection name) else .ok xs

/-- `analyzeSalesData(data, options)`: validation (steps 1-2), then the
pipeline.  A thrown `Error` is modelled as `Except.error`. -/
def analyzeSalesData (data : Option RawData) (options : Option RawOptions) :
    Except AnalyzeError (List SellerReport) :=
  match data with
  | none => .error .invalidInput
  | some d =>
    match validateField "sellers" d.sellers with
    | .error e => .error e
    | .ok sellers =>
      match validateField "products" d.products with
      | .error e => .error e
      | .ok products =>
        match validateField "purchase_records" d.purchase_records with
        | .error e => .error e
        | .ok records =>
          match options with
          | none => .error .missingOptions
          | some o =>
            match o.calculateRevenue, o.calculateBonus with
            | some calcRev, some calcBonus =>
              .ok (runAnalysis sellers products records calcRev calcBonus)
            | _, _ => .error .missingStrategy

/-- The module's default strategy pair, as a caller would inject it. -/
def defaultOptions : RawOptions :=
  { calculateRevenue := some fun item product =>
      calculateSimpleRevenue (some item) (some product)
    calculateBonus := some fun index total profit =>
      calculateBonusByProfit index total (some (some profit)) }

/-! ### Input-derived (specification-side) quantities

These re-express, per seller, what the aggregation loop accumulates, so
that claims can be stated against the input dataset alone. -/

/-- The purchase records bearing seller `id` (records the stats index
resolves to that seller). -/
def sellerRecords (records : List PurchaseRecord) (id : String) : List PurchaseRecord :=
  records.filter (fun rec => rec.seller_id == id)

/-- Cost contributed by one line item: catalog purchase price times
quantity, 0 when the SKU is unknown. -/
def itemCost (products : List Product) (item : LineItem) : ℚ :=
  match lookupProduct products item.sku with
  | none => 0
  | some product => product.purchase_price * item.quantity

/-- Cost contributed by one record. -/
def recordCost (products : List Product) (rec : PurchaseRecord) : ℚ :=
  (rec.items.map (itemCost products)).sum

/-- Accumulated (unrounded) revenue of a seller: the sum of
`total_amount || 0` over its records. -/
def sellerRevenueSpec (records : List PurchaseRecord) (id : String) : ℚ :=
  ((sellerRecords records id).map (fun rec => rec.total_amount.getD 0)).sum

/-- Accumulated (unrounded) cost of a seller. -/
def sellerCostSpec (products : List Product) (records : List PurchaseRecord)
    (id : String) : ℚ :=
  ((sellerRecords records id).map (recordCost products)).sum

/-- Full-precision profit of a seller: accumulated revenue minus cost. -/
def sellerProfitSpec (products : List Product) (records : List PurchaseRecord)
    (id : String) : ℚ :=
  sellerRevenueSpec records id - sellerCostSpec products records id

/-- The known-SKU line items of one record. -/
def knownItems (products : List Product) (rec : PurchaseRecord) : List LineItem :=
  rec.items.filter (fun item => (lookupProduct products item.sku).isSome)

/-- The per-SKU cumulative quantity map of a seller, entries in
first-encounter order. -/
def productsSoldSpec (products : List Product) (records : List PurchaseRecord)
    (id : String) : List (String × ℚ) :=
  (sellerRecords records id).foldl
    (fun m rec =>
      (knownItems products rec).foldl (fun m2 item => addQty item.sku item.quantity m2) m)
    []

/-- Cumulative quantity of one SKU across a seller's known-SKU items. -/
def skuQtySpec (products : List Product) (records : List PurchaseRecord)
    (id sku : String) : ℚ :=
  ((sellerRecords records id).map (fun rec =>
    (((knownItems products rec).filter (fun item => item.sku == sku)).map
      (fun item => item.quantity)).sum)).sum

/-- The fully aggregated stat of one seller, derived from the input. -/
def statOf (products : List Product) (records : List PurchaseRecord)
    (s : Seller) : SellerStat :=
  { id := s.id
    name := s.first_name ++ " " ++ s.last_name
    revenue := sellerRevenueSpec records s.id
    cost := sellerCostSpec products records s.id
    profit := sellerProfitSpec products records s.id
    sales_count := (sellerRecords records s.id).length
    products_sold := productsSoldSpec products records s.id }

/-- Association-list lookup in a quantity map. -/
def qtyLookup (m : List (String × ℚ)) (sku : String) : Option ℚ :=
  (m.find? (fun e => e.1 == sku)).map Prod.snd

/-- Modelled from the spec (for comparison with `round2`): rounding to 2
decimal places with exact half-cents moved away from zero. -/
def roundHalfAwayFromZero2 (x : ℚ) : ℚ :=
  if x < 0 then -((((-x) * 100 + 1 / 2).floor : ℚ) / 100)
  else ((x * 100 + 1 / 2).floor : ℚ) / 100

/-! ### Concrete sample data, used by witnesses and counterexamples -/

def sampleSellers : List Seller := [{ id := "s1", first_name := "A", last_name := "B" }]

def sampleProducts : List Product := [{ sku := "p1", purchase_price := 1, sale_price := 100 }]

def sampleItem : LineItem := { sku := "p1", discount := some 0, quantity := 2, sale_price := 100 }

def sampleRecords : List PurchaseRecord :=
  [{ seller_id := "s1", items := [sampleItem], total_amount := some 50,
     total_discount := none }]

def zeroRev : LineItem → Product → ℚ := fun _ _ => 0

def zeroBonus : ℕ → ℕ → ℚ → ℚ := fun _ _ _ => 0

def sampleSellers2 : List Seller :=
  [{ id := "s1", first_name := "A", last_name := "B" },
   { id := "s2", first_name := "C", last_name := "D" }]

def sampleProducts2 : List Product :=
  [{ sku := "p1", purchase_price := 1, sale_price := 100 },
   { sku := "p2", purchase_price := 2, sale_price := 50 }]

def sampleItem2 : LineItem := { sku := "p2", discount := some 0, quantity := 5, sale_price := 50 }

def sampleRecords2 : List PurchaseRecord :=
  [{ seller_id := "s1", items := [sampleItem, sampleItem2], total_amount := some 50,
     total_discount := none }]

def halfCentProducts : List Product :=
  [{ sku := "p1", purchase_price := 1 / 8, sale_price := 1 }]

def halfCentItem : LineItem :=
  { sku := "p1", discount := none, quantity := 1, sale_price := 1 }

def halfCentRecords : List PurchaseRecord :=
  [{ seller_id := "s1", items := [halfCentItem], total_amount := some 0,
     total_discount := none }]

def unknownSellerRecord : PurchaseRecord :=
  { seller_id := "zz", items := [], total_amount := some 7, total_discount := none }

def unknownSkuItem : LineItem :=
  { sku := "nope", discount := none, quantity := 1, sale_price := 1 }

def baseRecord : PurchaseRecord :=
  { seller_id := "s1", items := [], total_amount := some 50, total_discount := none }

def sampleReport3 : SellerReport :=
  { seller_id := "s1", name := "A B", revenue := 50, profit := 38, sales_count := 1,
    top_products := [("p2", 5), ("p1", 2)], bonus := 0 }

def numProducts : List Product :=
  [{ sku := "10", purchase_price := 1, sale_price := 1 },
   { sku := "2", purchase_price := 1, sale_price := 1 }]

def numItemA : LineItem := { sku := "10", discount := some 0, quantity := 3, sale_price := 1 }

def numItemB : LineItem := { sku := "2", discount := some 0, quantity := 3, sale_price := 1 }

def numRecords : List PurchaseRecord :=
  [{ seller_id := "s1", items := [numItemA, numItemB], total_amount := some 10,
     total_discount := none }]

/-! ### Strategy-level lemmas -/

/-- Dropping the (unused) revenue strategy value leaves `processItem`
unchanged: the strategy result is computed and discarded by the code. -/
theorem processItem_calcRev_irrel (f h : LineItem → Product → ℚ)
    (products : List Product) (st : SellerStat) (item : LineItem) :
    processItem f products st item = processItem h products st item := by
  unfold processItem
  cases lookupProduct products item.sku <;> rfl

theorem processRecord_calcRev_irrel (f h : LineItem → Product → ℚ)
    (products : List Product) (record : PurchaseRecord) (st : SellerStat) :
    processRecord f products record st = processRecord h products record st := by
  have hfun : processItem f products = processItem h products :=
    funext fun st => funext fun item => processItem_calcRev_irrel f h products st item
  unfold processRecord
  rw [hfun]

theorem runAnalysis_calcRev_irrel (sellers : List Seller) (products : List Product)
    (records : List PurchaseRecord) (f h : LineItem → Product → ℚ)
    (calcBonus : ℕ → ℕ → ℚ → ℚ) :
    runAnalysis sellers products records f calcBonus =
      runAnalysis sellers products records h calcBonus := by
  have hfun : processRecord f products = processRecord h products :=
    funext fun record => funext fun st => processRecord_calcRev_irrel f h products record st
  unfold runAnalysis aggregateRecords
  rw [hfun]

/-! ### Characterizing the aggregation loop -/

theorem foldl_processItem_eq (f : LineItem → Product → ℚ) (products : List Product) :
    ∀ (items : List LineItem) (st : SellerStat),
      items.foldl (processItem f products) st =
        { st with
            cost := st.cost + ((items.map (itemCost products)).sum)
            products_sold :=
              (items.filter (fun item => (lookupProduct products item.sku).isSome)).foldl
                (fun m item => addQty item.sku item.quantity m) st.products_sold }
  | [], st => by simp
  | item :: items, st => by
    rcases hp : lookupProduct products item.sku with _ | product
    · have hstep : processItem f products st item = st := by
        unfold processItem
        rw [hp]
      rw [List.foldl_cons, hstep, foldl_processItem_eq f products items st]
      simp [itemCost, hp]
    · have hstep : processItem f products st item =
          { st with
              cost := st.cost + product.purchase_price * item.quantity
              products_sold := addQty item.sku item.quantity st.products_sold } := by
        unfold processItem
        rw [hp]
      rw [List.foldl_cons, hstep, foldl_processItem_eq f products items _]
      simp [itemCost, hp, add_assoc]

theorem processRecord_eq (f : LineItem → Product → ℚ) (products : List Product)
    (rec : PurchaseRecord) (st : SellerStat) :
    processRecord f products rec st =
      { st with
          revenue := st.revenue + rec.total_amount.getD 0
          cost := st.cost + recordCost products rec
          sales_count := st.sales_count + 1
          products_sold := (knownItems products rec).foldl
            (fun m item => addQty item.sku item.quantity m) st.products_sold } := by
  unfold processRecord
  rw [foldl_processItem_eq]
  rfl

theorem processRecord_id (f : LineItem → Product → ℚ) (products : List Product)
    (rec : PurchaseRecord) (st : SellerStat) :
    (processRecord f products rec st).id = st.id := by
  rw [processRecord_eq]

theorem foldl_processRecord_eq (f : LineItem → Product → ℚ) (products : List Product) :
    ∀ (recs : List PurchaseRecord) (st : SellerStat),
      recs.foldl (fun st2 rec => processRecord f products rec st2) st =
        { st with
            revenue := st.revenue + ((recs.map (fun rec => rec.total_amount.getD 0)).sum)
            cost := st.cost + ((recs.map (recordCost products)).sum)
            sales_count := st.sales_count + recs.length
            products_sold := recs.foldl
              (fun m rec => (knownItems products rec).foldl
                (fun m2 item => addQty item.sku item.quantity m2) m) st.products_sold }
  | [], st => by simp
  | rec :: recs, st => by
    rw [List.foldl_cons, processRecord_eq, foldl_processRecord_eq f products recs _]
    simp [add_assoc]
    omega

/-! ### The stats index: `updateLast` -/

theorem updateLast_of_no_match {α : Type} (p : α → Bool) (f : α → α) (l : List α)
    (h : ∀ x ∈ l, p x = false) : updateLast p f l = l := by
  induction l with
  | nil => rfl
  | cons x xs ih =>
    have hx := h x (List.mem_cons_self x xs)
    have hxs : xs.any p = false := by
      simp only [List.any_eq_false]
      intro y hy
      simp [h y (List.mem_cons_of_mem x hy)]
    simp [updateLast, hxs, hx, ih fun y hy => h y (List.mem_cons_of_mem x hy)]

theorem updateLast_map_id (p : SellerStat → Bool) (F : SellerStat → SellerStat)
    (hF : ∀ st, (F st).id = st.id) :
    ∀ (l : List SellerStat), (updateLast p F l).map SellerStat.id = l.map SellerStat.id := by
  intro l
  induction l with
  | nil => rfl
  | cons x xs ih =>
    by_cases hany : xs.any p = true
    · simp [updateLast, hany, ih]
    · simp only [Bool.not_eq_true] at hany
      by_cases hx : p x = true
      · simp [updateLast, hany, hx, hF]
      · simp only [Bool.not_eq_true] at hx
        simp [updateLast, hany, hx]

theorem any_map_id (g : Seller → SellerStat) (hg : ∀ s, (g s).id = s.id) (v : String) :
    ∀ (ss : List Seller),
      ((ss.map g).any fun st => st.id == v) = ss.any fun s2 => s2.id == v
  | [] => rfl
  | a :: l => by simp only [List.map_cons, List.any_cons, hg, any_map_id g hg v l]

theorem updateLast_map_eq (g : Seller → SellerStat) (hg : ∀ s, (g s).id = s.id)
    (v : String) (F : SellerStat → SellerStat) :
    ∀ (sellers : List Seller), (sellers.map Seller.id).Nodup →
      updateLast (fun st => st.id == v) F (sellers.map g) =
        sellers.map (fun s => if s.id = v then F (g s) else g s) := by
  intro sellers hnd
  induction sellers with
  | nil => rfl
  | cons s ss ih =>
    rw [List.map_cons, List.nodup_cons] at hnd
    have hany : ((ss.map g).any fun st => st.id == v) = ss.any fun s2 => s2.id == v :=
      any_map_id g hg v ss
    by_cases hmem : ss.any (fun s2 => s2.id == v) = true
    · rcases List.any_eq_true.mp hmem with ⟨s2, hs2, hs2v⟩
      rw [beq_iff_eq] at hs2v
      have hsv : ¬ s.id = v := fun hcontra => by
        have heq : s.id = s2.id := hcontra.trans hs2v.symm
        exact hnd.1 (by rw [heq]; exact List.mem_map_of_mem Seller.id hs2)
      simp only [List.map_cons, updateLast, hany, hmem, if_true]
      rw [ih hnd.2]
      simp [hsv]
    · simp only [Bool.not_eq_true] at hmem
      have hnone : ∀ s2 ∈ ss, ¬ s2.id = v := by
        intro s2 hs2
        have := List.any_eq_false.mp hmem s2 hs2
        simpa using this
      have htail : (ss.map fun s2 => if s2.id = v then F (g s2) else g s2) = ss.map g :=
        List.map_congr_left fun s2 hs2 => by simp [hnone s2 hs2]
      by_cases hsv : s.id = v
      · simp only [List.map_cons, updateLast, hany, hmem, Bool.false_eq_true, if_false,
          hg, hsv, beq_self_eq_true, if_true, htail]
      · have hsvb : ((g s).id == v) = false := by simp [hg, hsv]
        simp only [List.map_cons, updateLast, hany, hmem, Bool.false_eq_true, if_false,
          hsvb, hsv, htail]

/-! ### Decomposing the aggregation per seller -/

theorem aggregateRecords_map (f : LineItem → Product → ℚ) (products : List Product)
    (records : List PurchaseRecord) :
    ∀ (sellers : List Seller) (g : Seller → SellerStat),
      (∀ s, (g s).id = s.id) → (sellers.map Seller.id).Nodup →
      aggregateRecords f products records (sellers.map g) =
        sellers.map (fun s =>
          (sellerRecords records s.id).foldl
            (fun st rec => processRecord f products rec st) (g s)) := by
  induction records with
  | nil =>
    intro sellers g hg hnd
    simp [aggregateRecords, sellerRecords]
  | cons rec recs ih =>
    intro sellers g hg hnd
    have hstep : aggregateRecords f products (rec :: recs) (sellers.map g) =
        aggregateRecords f products recs
          (updateLast (fun st => st.id == rec.seller_id)
            (processRecord f products rec) (sellers.map g)) := rfl
    rw [hstep, updateLast_map_eq g hg rec.seller_id (processRecord f products rec) sellers hnd]
    have hg2 : ∀ s, ((fun s => if s.id = rec.seller_id
        then processRecord f products rec (g s) else g s) s).id = s.id := by
      intro s
      by_cases h : s.id = rec.seller_id
      · simp [h, processRecord_id, hg]
      · simp [h, hg]
    rw [ih sellers _ hg2 hnd]
    apply List.map_congr_left
    intro s _
    by_cases h : s.id = rec.seller_id
    · have hb : (rec.seller_id == s.id) = true := by simp [h]
      simp [sellerRecords, List.filter_cons, hb, h]
    · have hb : (rec.seller_id == s.id) = false := by
        simp only [beq_eq_false_iff_ne, ne_eq]
        exact fun hcontra => h hcontra.symm
      simp [sellerRecords, List.filter_cons, hb, h]

/-! ### The pipeline as a map over the sellers -/

theorem runAnalysis_eq (sellers : List Seller) (products : List Product)
    (records : List PurchaseRecord) (f : LineItem → Product → ℚ)
    (g : ℕ → ℕ → ℚ → ℚ) (hnd : (sellers.map Seller.id).Nodup) :
    runAnalysis sellers products records f g =
      mapWithIndex (makeReport g sellers.length) 0
        (List.insertionSort profitRel (sellers.map (statOf products records))) := by
  have hagg : (aggregateRecords f products records (initStats sellers)).map
      (fun st => { st with profit := st.revenue - st.cost }) =
      sellers.map (statOf products records) := by
    rw [initStats, aggregateRecords_map f products records sellers initStat (fun s => rfl) hnd,
      List.map_map]
    apply List.map_congr_left
    intro s _
    have hfold := foldl_processRecord_eq f products (sellerRecords records s.id) (initStat s)
    simp only [Function.comp]
    rw [hfold]
    simp [statOf, initStat, sellerRevenueSpec, sellerCostSpec, sellerProfitSpec,
      productsSoldSpec, sellerRecords]
  have hlen : (List.insertionSort profitRel
      (sellers.map (statOf products records))).length = sellers.length := by
    rw [List.length_insertionSort, List.length_map]
  simp only [runAnalysis]
  rw [hagg, hlen]

theorem mem_mapWithIndex {α β : Type} (f : ℕ → α → β) :
    ∀ (i : ℕ) (l : List α) (b : β), b ∈ mapWithIndex f i l → ∃ j a, a ∈ l ∧ b = f j a := by
  intro i l
  induction l generalizing i with
  | nil => intro b h; cases h
  | cons x xs ih =>
    intro b h
    simp only [mapWithIndex] at h
    rcases List.mem_cons.mp h with h | h
    · exact ⟨i, x, List.mem_cons_self x xs, h⟩
    · rcases ih (i + 1) b h with ⟨j, a, ha, hb⟩
      exact ⟨j, a, List.mem_cons_of_mem x ha, hb⟩

theorem mem_runAnalysis (sellers : List Seller) (products : List Product)
    (records : List PurchaseRecord) (f : LineItem → Product → ℚ) (g : ℕ → ℕ → ℚ → ℚ)
    (hnd : (sellers.map Seller.id).Nodup) (r : SellerReport)
    (hr : r ∈ runAnalysis sellers products records f g) :
    ∃ index s, s ∈ sellers ∧
      r = makeReport g sellers.length index (statOf products records s) := by
  rw [runAnalysis_eq sellers products records f g hnd] at hr
  rcases mem_mapWithIndex _ 0 _ r hr with ⟨j, st, hst, hb⟩
  rw [List.mem_insertionSort] at hst
  rcases List.mem_map.mp hst with ⟨s, hs, rfl⟩
  exact ⟨j, s, hs, hb⟩

/-! ### Stability and order of the sorts -/

theorem pairwise_orderedInsert {α : Type} (rel : α → α → Prop) [DecidableRel rel]
    (R : α → α → Prop) (x : α) :
    ∀ (s : List α), s.Pairwise R → (∀ y ∈ s, R x y) → (∀ y ∈ s, ¬ rel x y → R y x) →
      (List.orderedInsert rel x s).Pairwise R
  | [], _, _, _ => List.pairwise_singleton R x
  | y :: t, hs, hxy, hyx => by
    by_cases hrel : rel x y
    · simp only [List.orderedInsert, if_pos hrel]
      exact List.Pairwise.cons hxy hs
    · simp only [List.orderedInsert, if_neg hrel]
      have hyall : ∀ z ∈ List.orderedInsert rel x t, R y z := by
        intro z hz
        rcases (List.mem_orderedInsert rel).mp hz with hz | hz
        · rw [hz]
          exact hyx y (List.mem_cons_self y t) hrel
        · exact List.rel_of_pairwise_cons hs hz
      exact List.Pairwise.cons hyall
        (pairwise_orderedInsert rel R x t (List.Pairwise.of_cons hs)
          (fun z hz => hxy z (List.mem_cons_of_mem y hz))
          (fun z hz => hyx z (List.mem_cons_of_mem y hz)))

theorem insertionSort_pairwise_stable {α : Type} (rel : α → α → Prop) [DecidableRel rel]
    (key : α → ℚ) (idx : α → ℕ) (hr : ∀ a b, key a = key b → rel a b) :
    ∀ (l : List α), l.Pairwise (fun a b => idx a < idx b) →
      (List.insertionSort rel l).Pairwise (fun a b => key a = key b → idx a < idx b)
  | [], _ => List.Pairwise.nil
  | x :: xs, h => by
    rcases List.pairwise_cons.mp h with ⟨hx, hxs⟩
    simp only [List.insertionSort]
    apply pairwise_orderedInsert rel _ x
    · exact insertionSort_pairwise_stable rel key idx hr xs hxs
    · intro y hy _
      exact hx y ((List.mem_insertionSort rel).mp hy)
    · intro y _ hnrel hkey
      exact absurd (hr x y hkey.symm) hnrel

theorem pairwise_indexOf_keys {α β : Type} [DecidableEq β] (k : α → β) :
    ∀ (l : List α), (l.map k).Nodup →
      l.Pairwise (fun a b => (l.map k).indexOf (k a) < (l.map k).indexOf (k b))
  | [], _ => List.Pairwise.nil
  | x :: xs, hnd0 => by
    rw [List.map_cons, List.nodup_cons] at hnd0
    refine List.Pairwise.cons ?_ ?_
    · intro b hb
      have hkb : k b ≠ k x := fun hcontra =>
        hnd0.1 (hcontra ▸ List.mem_map_of_mem k hb)
      rw [List.map_cons, List.indexOf_cons_self, List.indexOf_cons_ne _ (Ne.symm hkb)]
      exact Nat.succ_pos _
    · refine (pairwise_indexOf_keys k xs hnd0.2).imp_of_mem ?_
      intro a b ha hb hab
      have hka : k a ≠ k x := fun hcontra => hnd0.1 (hcontra ▸ List.mem_map_of_mem k ha)
      have hkb : k b ≠ k x := fun hcontra => hnd0.1 (hcontra ▸ List.mem_map_of_mem k hb)
      rw [List.map_cons, List.indexOf_cons_ne _ (Ne.symm hka),
        List.indexOf_cons_ne _ (Ne.symm hkb)]
      exact Nat.succ_lt_succ hab

/-! ### `mapWithIndex` helpers -/

theorem length_mapWithIndex {α β : Type} (f : ℕ → α → β) :
    ∀ (i : ℕ) (l : List α), (mapWithIndex f i l).length = l.length
  | _, [] => rfl
  | i, x :: xs => by simp [mapWithIndex, length_mapWithIndex f (i + 1) xs]

theorem map_mapWithIndex {α β γ : Type} (f : ℕ → α → β) (k : β → γ) (k2 : α → γ)
    (hk : ∀ i a, k (f i a) = k2 a) :
    ∀ (i : ℕ) (l : List α), (mapWithIndex f i l).map k = l.map k2
  | _, [] => rfl
  | i, x :: xs => by simp [mapWithIndex, hk, map_mapWithIndex f k k2 hk (i + 1) xs]

theorem pairwise_mapWithIndex {α β : Type} (f : ℕ → α → β) (R : α → α → Prop)
    (S : β → β → Prop) (hf : ∀ i j a b, R a b → S (f i a) (f j b)) :
    ∀ (i : ℕ) (l : List α), l.Pairwise R → (mapWithIndex f i l).Pairwise S
  | _, [], _ => List.Pairwise.nil
  | i, x :: xs, h => by
    rcases List.pairwise_cons.mp h with ⟨hx, hxs⟩
    refine List.Pairwise.cons ?_ (pairwise_mapWithIndex f R S hf (i + 1) xs hxs)
    intro b hb
    rcases mem_mapWithIndex f (i + 1) xs b hb with ⟨j, a, ha, rfl⟩
    exact hf i j x a (hx a ha)

/-! ### The quantity map -/

theorem addQty_keys (sku : String) (q : ℚ) :
    ∀ (m : List (String × ℚ)),
      (addQty sku q m).map Prod.fst =
        if sku ∈ m.map Prod.fst then m.map Prod.fst else m.map Prod.fst ++ [sku]
  | [] => by simp [addQty]
  | (s, n) :: rest => by
    by_cases h : s = sku
    · subst h
      simp [addQty]
    · simp only [addQty, if_neg h, List.map_cons, addQty_keys sku q rest]
      by_cases h2 : sku ∈ rest.map Prod.fst
      · rw [if_pos h2, if_pos (List.mem_cons_of_mem s h2)]
      · rw [if_neg h2, if_neg (show sku ∉ s :: rest.map Prod.fst from by
          intro hc
          rcases List.mem_cons.mp hc with hc | hc
          · exact h hc.symm
          · exact h2 hc)]
        exact (List.cons_append s (rest.map Prod.fst) [sku]).symm

theorem addQty_keys_nodup (sku : String) (q : ℚ) (m : List (String × ℚ))
    (h : (m.map Prod.fst).Nodup) : ((addQty sku q m).map Prod.fst).Nodup := by
  rw [addQty_keys]
  by_cases h2 : sku ∈ m.map Prod.fst
  · simpa [h2] using h
  · simp only [h2, if_false]
    simp [List.nodup_append, h, h2]

theorem foldl_addQty_keys_nodup :
    ∀ (items : List LineItem) (m : List (String × ℚ)), (m.map Prod.fst).Nodup →
      ((items.foldl (fun m2 item => addQty item.sku item.quantity m2) m).map Prod.fst).Nodup
  | [], _, h => h
  | item :: items, m, h =>
    foldl_addQty_keys_nodup items _ (addQty_keys_nodup item.sku item.quantity m h)

theorem foldl_records_keys_nodup (products : List Product) :
    ∀ (recs : List PurchaseRecord) (m : List (String × ℚ)), (m.map Prod.fst).Nodup →
      ((recs.foldl (fun m2 rec => (knownItems products rec).foldl
          (fun m3 item => addQty item.sku item.quantity m3) m2) m).map Prod.fst).Nodup
  | [], _, h => h
  | rec :: recs, m, h =>
    foldl_records_keys_nodup products recs _
      (foldl_addQty_keys_nodup (knownItems products rec) m h)

theorem productsSoldSpec_keys_nodup (products : List Product)
    (records : List PurchaseRecord) (id : String) :
    ((productsSoldSpec products records id).map Prod.fst).Nodup :=
  foldl_records_keys_nodup products (sellerRecords records id) [] (by simp)

theorem qtyLookup_addQty (sku : String) (q : ℚ) (k : String) :
    ∀ (m : List (String × ℚ)),
      qtyLookup (addQty sku q m) k =
        if k = sku then some ((qtyLookup m k).getD 0 + q) else qtyLookup m k
  | [] => by
    by_cases h : k = sku
    · subst h
      simp [addQty, qtyLookup]
    · have hhead : (sku == k) = false := by
        simp only [beq_eq_false_iff_ne, ne_eq]
        exact fun hh => h hh.symm
      simp [addQty, qtyLookup, hhead, h]
  | (s, n) :: rest => by
    by_cases hs : s = sku
    · subst hs
      by_cases hk : k = s
      · subst hk
        simp [addQty, qtyLookup]
      · have hhead : (s == k) = false := by
          simp only [beq_eq_false_iff_ne, ne_eq]
          exact fun hh => hk hh.symm
        simp [addQty, qtyLookup, hhead, hk]
    · by_cases hk : k = s
      · subst hk
        simp [addQty, hs, qtyLookup]
      · have hhead : (s == k) = false := by
          simp only [beq_eq_false_iff_ne, ne_eq]
          exact fun hh => hk hh.symm
        have haq : addQty sku q ((s, n) :: rest) = (s, n) :: addQty sku q rest := by
          simp [addQty, hs]
        rw [haq]
        have hcons2 : qtyLookup ((s, n) :: addQty sku q rest) k =
            qtyLookup (addQty sku q rest) k := by
          simp [qtyLookup, List.find?, hhead]
        have hcons : qtyLookup ((s, n) :: rest) k = qtyLookup rest k := by
          simp [qtyLookup, List.find?, hhead]
        rw [hcons2, hcons, qtyLookup_addQty sku q k rest]

theorem qtyVal_foldl_items (k : String) :
    ∀ (items : List LineItem) (m : List (String × ℚ)),
      (qtyLookup (items.foldl (fun m2 item => addQty item.sku item.quantity m2) m) k).getD 0 =
        (qtyLookup m k).getD 0 +
          (((items.filter (fun item => item.sku == k)).map (fun item => item.quantity)).sum)
  | [], m => by simp
  | item :: items, m => by
    rw [List.foldl_cons, qtyVal_foldl_items k items _, qtyLookup_addQty]
    by_cases h : item.sku = k
    · have hb : (item.sku == k) = true := by simp [h]
      have hk : k = item.sku := h.symm
      simp [List.filter_cons, hb, hk, add_assoc]
    · have hb : (item.sku == k) = false := by simp [h]
      have hk : ¬ k = item.sku := fun hh => h hh.symm
      simp [List.filter_cons, hb, hk]

theorem qtyVal_foldl_records (products : List Product) (k : String) :
    ∀ (recs : List PurchaseRecord) (m : List (String × ℚ)),
      (qtyLookup (recs.foldl (fun m2 rec => (knownItems products rec).foldl
          (fun m3 item => addQty item.sku item.quantity m3) m2) m) k).getD 0 =
        (qtyLookup m k).getD 0 +
          ((recs.map (fun rec => (((knownItems products rec).filter
            (fun item => item.sku == k)).map (fun item => item.quantity)).sum)).sum)
  | [], m => by simp
  | rec :: recs, m => by
    rw [List.foldl_cons, qtyVal_foldl_records products k recs _, qtyVal_foldl_items k]
    simp [add_assoc]

theorem qtyLookup_of_mem :
    ∀ (m : List (String × ℚ)), (m.map Prod.fst).Nodup → ∀ {s : String} {q : ℚ},
      (s, q) ∈ m → qtyLookup m s = some q
  | [], _, _, _, h => absurd h (List.not_mem_nil _)
  | (s1, q1) :: rest, hnd0, s, q, h => by
    rcases List.mem_cons.mp h with h | h
    · cases h
      simp [qtyLookup]
    · rw [List.map_cons, List.nodup_cons] at hnd0
      have hne : s1 ≠ s := fun hcontra =>
        hnd0.1 (by rw [hcontra]; exact List.mem_map.mpr ⟨(s, q), h, rfl⟩)
      have htail := qtyLookup_of_mem rest hnd0.2 h
      simp only [qtyLookup, List.find?] at htail ⊢
      have hhead : ((s1, q1).1 == s) = false := by simp [hne]
      simp only [hhead]
      exact htail

theorem mem_productsSoldSpec (products : List Product) (records : List PurchaseRecord)
    (id : String) {s : String} {q : ℚ}
    (h : (s, q) ∈ productsSoldSpec products records id) :
    q = skuQtySpec products records id s := by
  have hl := qtyLookup_of_mem _ (productsSoldSpec_keys_nodup products records id) h
  have key : (qtyLookup (productsSoldSpec products records id) s).getD 0 =
      (qtyLookup [] s).getD 0 + skuQtySpec products records id s :=
    qtyVal_foldl_records products s (sellerRecords records id) []
  rw [hl] at key
  simpa [qtyLookup] using key

theorem round2_zero : round2 0 = 0 := by
  norm_num [round2, Rat.floor_def']

/-! ### The `Object.entries` enumeration -/

theorem jsEntries_perm (m : List (String × ℚ)) : (jsEntries m).Perm m := by
  have h1 := (List.perm_insertionSort entriesRel
    (m.filter fun e => (arrayIndexKey e.1).isSome)).append_right
    (m.filter fun e => !(arrayIndexKey e.1).isSome)
  exact h1.trans (List.filter_append_perm _ m)

theorem jsEntries_length (m : List (String × ℚ)) : (jsEntries m).length = m.length :=
  (jsEntries_perm m).length_eq

theorem jsEntries_keys_nodup (m : List (String × ℚ)) (h : (m.map Prod.fst).Nodup) :
    ((jsEntries m).map Prod.fst).Nodup :=
  ((jsEntries_perm m).map Prod.fst).symm.nodup h

theorem jsEntries_of_none (m : List (String × ℚ))
    (h : ∀ e ∈ m, arrayIndexKey e.1 = none) : jsEntries m = m := by
  have h1 : (m.filter fun e => (arrayIndexKey e.1).isSome) = [] := by
    rw [List.filter_eq_nil_iff]
    intro a ha
    simp [h a ha]
  have h2 : (m.filter fun e => !(arrayIndexKey e.1).isSome) = m := by
    rw [List.filter_eq_self]
    intro a ha
    simp [h a ha]
  rw [jsEntries, h1, h2]
  rfl

/-! ### Evaluations of the sample datasets -/

theorem sample_run_eq :
    runAnalysis sampleSellers sampleProducts sampleRecords zeroRev zeroBonus =
      [{ seller_id := "s1", name := "A B", revenue := 50, profit := 48, sales_count := 1,
         top_products := [("p1", 2)], bonus := 0 }] := by
  norm_num [runAnalysis, aggregateRecords, processRecord, processItem, lookupProduct,
    updateLast, addQty, initStats, initStat, makeReport, mapWithIndex, round2,
    Rat.floor_def', List.insertionSort, List.orderedInsert, profitRel, qtyRel,
    sampleSellers, sampleProducts, sampleRecords, sampleItem, zeroRev, zeroBonus,
    jsEntries, entriesRel, (show arrayIndexKey "p1" = none from by decide)]
  all_goals decide

theorem sample2_run_eq :
    runAnalysis sampleSellers2 sampleProducts sampleRecords zeroRev zeroBonus =
      [{ seller_id := "s1", name := "A B", revenue := 50, profit := 48, sales_count := 1,
         top_products := [("p1", 2)], bonus := 0 },
       { seller_id := "s2", name := "C D", revenue := 0, profit := 0, sales_count := 0,
         top_products := [], bonus := 0 }] := by
  norm_num [runAnalysis, aggregateRecords, processRecord, processItem, lookupProduct,
    updateLast, addQty, initStats, initStat, makeReport, mapWithIndex, round2,
    Rat.floor_def', List.insertionSort, List.orderedInsert, profitRel, qtyRel,
    sampleSellers2, sampleProducts, sampleRecords, sampleItem, zeroRev, zeroBonus,
    jsEntries, entriesRel, (show arrayIndexKey "p1" = none from by decide)]
  all_goals decide

theorem sample3_run_eq :
    runAnalysis sampleSellers sampleProducts2 sampleRecords2 zeroRev zeroBonus =
      [{ seller_id := "s1", name := "A B", revenue := 50, profit := 38, sales_count := 1,
         top_products := [("p2", 5), ("p1", 2)], bonus := 0 }] := by
  norm_num [runAnalysis, aggregateRecords, processRecord, processItem, lookupProduct,
    updateLast, addQty, initStats, initStat, makeReport, mapWithIndex, round2,
    Rat.floor_def', List.insertionSort, List.orderedInsert, profitRel, qtyRel,
    sampleSellers, sampleProducts2, sampleRecords2, sampleItem, sampleItem2,
    zeroRev, zeroBonus, List.find?, (show ("p2" == "p1") = false from by decide),
    (show ("p1" == "p2") = false from by decide), jsEntries, entriesRel,
    (show arrayIndexKey "p1" = none from by decide),
    (show arrayIndexKey "p2" = none from by decide)]
  all_goals decide

/-! ### Claim theorems -/

/-- C3 counterexample: the code does not clamp the discount.  For
`sale_price = 100, quantity = 1, discount = 200` it returns `-100`, which
is negative, while the claimed clamp formula would give `0`. -/
theorem calculateSimpleRevenue_negative_counterexample :
    calculateSimpleRevenue
        (some { sku := "p", discount := some 200, quantity := 1, sale_price := 100 }) none
      = -100
    ∧ ¬ (0 : ℚ) ≤ -100
    ∧ (100 : ℚ) * 1 * (1 - min (max (200 : ℚ) 0) 100 / 100) = 0 := by
  refine ⟨?_, by norm_num, by norm_num⟩
  norm_num [calculateSimpleRevenue, round2, Rat.floor_def']

/-- C3 (amended): `calculateSimpleRevenue` returns
`round2 (sale_price * quantity * (1 - discount / 100))` with a falsy
`discount` defaulting to 0 and no clamping (so it can be negative when
`discount > 100`); it returns 0 when the purchase is absent or
`sale_price`/`quantity` is falsy; and it yields `180.00` for
`sale_price = 100, quantity = 2, discount = 10`. -/
theorem calculateSimpleRevenue_spec :
    (∀ prod, calculateSimpleRevenue none prod = 0)
    ∧ (∀ item prod, item.sale_price = 0 ∨ item.quantity = 0 →
        calculateSimpleRevenue (some item) prod = 0)
    ∧ (∀ item prod, item.sale_price ≠ 0 → item.quantity ≠ 0 →
        calculateSimpleRevenue (some item) prod =
          round2 (item.sale_price * item.quantity * (1 - item.discount.getD 0 / 100)))
    ∧ calculateSimpleRevenue
        (some { sku := "p", discount := some 10, quantity := 2, sale_price := 100 }) none
      = 180 := by
  refine ⟨fun _ => rfl, ?_, ?_, ?_⟩
  · intro item prod h
    simp only [calculateSimpleRevenue, if_pos h]
  · intro item prod h1 h2
    simp only [calculateSimpleRevenue, if_neg (by tauto : ¬(item.sale_price = 0 ∨ item.quantity = 0))]
  · norm_num [calculateSimpleRevenue, round2, Rat.floor_def']

/-- C3 witness: the amended formula at `sale_price = 20, quantity = 3,
discount = 50` gives `30`. -/
theorem calculateSimpleRevenue_spec_witness :
    calculateSimpleRevenue
        (some { sku := "q", discount := some 50, quantity := 3, sale_price := 20 }) none
      = 30 := by
  have h := calculateSimpleRevenue_spec.2.2.1
    { sku := "q", discount := some 50, quantity := 3, sale_price := 20 } none
    (by norm_num) (by norm_num)
  rw [h]
  norm_num [round2, Rat.floor_def']

/-- C4: the default bonus strategy gives rank 0 a bonus of 15% of profit,
ranks 1 and 2 a bonus of 10%, the last rank (when not one of ranks 0-2) a
bonus of 0, and every other rank 5%; the top-rank branch precedes the
last-rank branch, so a lone seller (rank 0 of 1) receives 15%; for 5
sellers with profit 1000 the bonuses are 150, 100, 100, 50, 0. -/
theorem calculateBonusByProfit_tiers :
    (∀ total profit, calculateBonusByProfit 0 total (some (some profit)) =
        round2 (profit * (15 / 100)))
    ∧ (∀ index total profit, index = 1 ∨ index = 2 →
        calculateBonusByProfit index total (some (some profit)) =
          round2 (profit * (10 / 100)))
    ∧ (∀ index total profit, index ≠ 0 → index ≠ 1 → index ≠ 2 → index = total - 1 →
        calculateBonusByProfit index total (some (some profit)) = 0)
    ∧ (∀ index total profit, index ≠ 0 → index ≠ 1 → index ≠ 2 → index ≠ total - 1 →
        calculateBonusByProfit index total (some (some profit)) =
          round2 (profit * (5 / 100)))
    ∧ (∀ profit, calculateBonusByProfit 0 1 (some (some profit)) =
        round2 (profit * (15 / 100)))
    ∧ calculateBonusByProfit 0 5 (some (some 1000)) = 150
    ∧ calculateBonusByProfit 1 5 (some (some 1000)) = 100
    ∧ calculateBonusByProfit 2 5 (some (some 1000)) = 100
    ∧ calculateBonusByProfit 3 5 (some (some 1000)) = 50
    ∧ calculateBonusByProfit 4 5 (some (some 1000)) = 0 := by
  refine ⟨fun total profit => rfl, ?_, ?_, ?_, fun profit => rfl, ?_, ?_, ?_, ?_, ?_⟩
  · intro index total profit h
    rcases h with h | h <;> subst h <;> rfl
  · intro index total profit h0 h1 h2 ht
    simp only [calculateBonusByProfit, if_neg h0, if_neg (by tauto : ¬(index = 1 ∨ index = 2)),
      if_pos ht]
    norm_num [round2, Rat.floor_def']
  · intro index total profit h0 h1 h2 ht
    simp only [calculateBonusByProfit, if_neg h0, if_neg (by tauto : ¬(index = 1 ∨ index = 2)),
      if_neg ht]
  all_goals norm_num [calculateBonusByProfit, round2, Rat.floor_def']

/-- C4 witness: rank 5 of 10 with profit 1000 gets the 5% tier, 50. -/
theorem calculateBonusByProfit_tiers_witness :
    calculateBonusByProfit 5 10 (some (some 1000)) = 50 := by
  have h := calculateBonusByProfit_tiers.2.2.2.1 5 10 1000
    (by norm_num) (by norm_num) (by norm_num) (by norm_num)
  rw [h]
  norm_num [round2, Rat.floor_def']

/-- C2: the injected revenue strategy never influences the output; two
runs differing only in `calculateRevenue` produce identical reports. -/
theorem analyzeSalesData_revenue_strategy_independent
    (data : Option RawData) (f fAlt : LineItem → Product → ℚ) (g : ℕ → ℕ → ℚ → ℚ) :
    analyzeSalesData data (some { calculateRevenue := some f, calculateBonus := some g }) =
      analyzeSalesData data
        (some { calculateRevenue := some fAlt, calculateBonus := some g }) := by
  rcases data with _ | d
  · rfl
  rcases h1 : validateField "sellers" d.sellers with e | sellers
  · simp only [analyzeSalesData, h1]
  rcases h2 : validateField "products" d.products with e | products
  · simp only [analyzeSalesData, h1, h2]
  rcases h3 : validateField "purchase_records" d.purchase_records with e | records
  · simp only [analyzeSalesData, h1, h2, h3]
  simp only [analyzeSalesData, h1, h2, h3]
  exact congrArg Except.ok (runAnalysis_calcRev_irrel sellers products records f fAlt g)

/-- C10: the pipeline is a pure function of its two arguments; calling it
twice on identical inputs and strategies yields identical reports. -/
theorem analyzeSalesData_deterministic (data : Option RawData) (options : Option RawOptions) :
    analyzeSalesData data options = analyzeSalesData data options := rfl

/-- C7: validation failures surface as errors (never a partial report, the
result type being all-or-nothing): an absent dataset is `invalidInput`,
empty `purchase_records` is `emptyCollection`, absent options is
`missingOptions`, and a missing or non-invocable strategy is
`missingStrategy`. -/
theorem analyzeSalesData_validation :
    (∀ options, analyzeSalesData none options = .error .invalidInput)
    ∧ (∀ sellers products options, sellers ≠ [] → products ≠ [] →
        analyzeSalesData
            (some { sellers := .arr sellers, products := .arr products,
                    purchase_records := .arr ([] : List PurchaseRecord) }) options
          = .error (.emptyCollection "purchase_records"))
    ∧ (∀ sellers products records, sellers ≠ [] → products ≠ [] → records ≠ [] →
        analyzeSalesData
            (some { sellers := .arr sellers, products := .arr products,
                    purchase_records := .arr records }) none
          = .error .missingOptions)
    ∧ (∀ sellers products records fOpt gOpt, sellers ≠ [] → products ≠ [] → records ≠ [] →
        fOpt = none ∨ gOpt = none →
        analyzeSalesData
            (some { sellers := .arr sellers, products := .arr products,
                    purchase_records := .arr records })
            (some { calculateRevenue := fOpt, calculateBonus := gOpt })
          = .error .missingStrategy) := by
  refine ⟨fun _ => rfl, ?_, ?_, ?_⟩
  · intro sellers products options hs hp
    rcases sellers with _ | ⟨s, ss⟩
    · exact absurd rfl hs
    rcases products with _ | ⟨p, ps⟩
    · exact absurd rfl hp
    rfl
  · intro sellers products records hs hp hr
    rcases sellers with _ | ⟨s, ss⟩
    · exact absurd rfl hs
    rcases products with _ | ⟨p, ps⟩
    · exact absurd rfl hp
    rcases records with _ | ⟨r, rs⟩
    · exact absurd rfl hr
    rfl
  · intro sellers products records fOpt gOpt hs hp hr hmiss
    rcases sellers with _ | ⟨s, ss⟩
    · exact absurd rfl hs
    rcases products with _ | ⟨p, ps⟩
    · exact absurd rfl hp
    rcases records with _ | ⟨r, rs⟩
    · exact absurd rfl hr
    rcases hmiss with h | h <;> subst h
    · cases gOpt <;> rfl
    · cases fOpt <;> rfl

/-- C7 witness: a one-seller, one-product dataset with empty
`purchase_records` fails with `emptyCollection`; the same dataset with an
options object carrying no strategies fails with `missingStrategy`. -/
theorem analyzeSalesData_validation_witness :
    analyzeSalesData
        (some { sellers := .arr [{ id := "s1", first_name := "A", last_name := "B" }],
                products := .arr [{ sku := "p1", purchase_price := 1, sale_price := 2 }],
                purchase_records := .arr ([] : List PurchaseRecord) })
        (some defaultOptions)
      = .error (.emptyCollection "purchase_records")
    ∧ analyzeSalesData
        (some { sellers := .arr [{ id := "s1", first_name := "A", last_name := "B" }],
                products := .arr [{ sku := "p1", purchase_price := 1, sale_price := 2 }],
                purchase_records := .arr
                  [{ seller_id := "s1", items := [], total_amount := none,
                     total_discount := none }] })
        (some { calculateRevenue := none, calculateBonus := none })
      = .error .missingStrategy :=
  ⟨analyzeSalesData_validation.2.1 _ _ _ (by simp) (by simp),
   analyzeSalesData_validation.2.2.2 _ _ _ _ _ (by simp) (by simp) (by simp) (Or.inl rfl)⟩

/-- C1 counterexample: with the default strategies, a record with
`total_amount = 50` whose single line item has strategy revenue 200 is
reported with revenue 50, not `round2 200 = 200`: the aggregator adds
`total_amount`, discarding the revenue strategy's value. -/
theorem revenue_ignores_strategy_counterexample :
    analyzeSalesData
        (some { sellers := .arr sampleSellers, products := .arr sampleProducts,
                purchase_records := .arr sampleRecords })
        (some defaultOptions)
      = .ok [{ seller_id := "s1", name := "A B", revenue := 50, profit := 48,
               sales_count := 1, top_products := [("p1", 2)], bonus := 36 / 5 }]
    ∧ calculateSimpleRevenue (some sampleItem)
        (some { sku := "p1", purchase_price := 1, sale_price := 100 }) = 200
    ∧ (50 : ℚ) ≠ round2 200 := by
  refine ⟨?_, ?_, by norm_num [round2, Rat.floor_def']⟩
  · norm_num [analyzeSalesData, validateField, defaultOptions, runAnalysis,
      aggregateRecords, processRecord, processItem, lookupProduct, updateLast, addQty,
      initStats, initStat, makeReport, mapWithIndex, round2, Rat.floor_def',
      List.insertionSort, List.orderedInsert, profitRel, qtyRel, calculateSimpleRevenue,
      calculateBonusByProfit, sampleSellers, sampleProducts, sampleRecords, sampleItem,
      jsEntries, entriesRel, (show arrayIndexKey "p1" = none from by decide)]
    all_goals decide
  · norm_num [calculateSimpleRevenue, sampleItem, round2, Rat.floor_def']

/-- C1 (amended): for every validated dataset whose sellers have distinct
ids, each report's revenue is `round2` of the sum of `total_amount || 0`
over the purchase records bearing that seller's id — not of the revenue
strategy's per-item values, which the code discards. -/
theorem report_revenue_spec (sellers : List Seller) (products : List Product)
    (records : List PurchaseRecord) (f : LineItem → Product → ℚ) (g : ℕ → ℕ → ℚ → ℚ)
    (hnd : (sellers.map Seller.id).Nodup) :
    ∀ r ∈ runAnalysis sellers products records f g,
      r.revenue = round2 (((records.filter
        (fun rec => rec.seller_id == r.seller_id)).map
          (fun rec => rec.total_amount.getD 0)).sum) := by
  intro r hr
  rcases mem_runAnalysis sellers products records f g hnd r hr with ⟨index, s, hs, rfl⟩
  simp [makeReport, statOf, sellerRevenueSpec, sellerRecords]

/-- C1 witness: on the sample dataset the emitted revenue 50 equals
`round2` of the seller's summed `total_amount`. -/
theorem report_revenue_spec_witness :
    ({ seller_id := "s1", name := "A B", revenue := 50, profit := 48, sales_count := 1,
       top_products := [("p1", 2)], bonus := 0 } : SellerReport).revenue =
      round2 (((sampleRecords.filter (fun rec => rec.seller_id ==
        ({ seller_id := "s1", name := "A B", revenue := 50, profit := 48, sales_count := 1,
           top_products := [("p1", 2)], bonus := 0 } : SellerReport).seller_id)).map
          (fun rec => rec.total_amount.getD 0)).sum) :=
  report_revenue_spec sampleSellers sampleProducts sampleRecords zeroRev zeroBonus
    (by decide) _ (by rw [sample_run_eq]; exact List.mem_cons_self _ _)

/-- C5 counterexample: a seller whose full-precision profit is the exact
half-cent -0.125 is reported with profit -0.12 (`Math.round` sends halves
toward +∞), while half-away-from-zero rounding gives -0.13. -/
theorem rounding_half_counterexample :
    analyzeSalesData
        (some { sellers := .arr sampleSellers, products := .arr halfCentProducts,
                purchase_records := .arr halfCentRecords })
        (some { calculateRevenue := some zeroRev, calculateBonus := some zeroBonus })
      = .ok [{ seller_id := "s1", name := "A B", revenue := 0, profit := -3 / 25,
               sales_count := 1, top_products := [("p1", 1)], bonus := 0 }]
    ∧ roundHalfAwayFromZero2 (-1 / 8) = -13 / 100
    ∧ (-3 / 25 : ℚ) ≠ -13 / 100 := by
  refine ⟨?_, by norm_num [roundHalfAwayFromZero2, Rat.floor_def'], by norm_num⟩
  norm_num [analyzeSalesData, validateField, runAnalysis, aggregateRecords, processRecord,
    processItem, lookupProduct, updateLast, addQty, initStats, initStat, makeReport,
    mapWithIndex, round2, Rat.floor_def', List.insertionSort, List.orderedInsert,
    profitRel, qtyRel, zeroRev, zeroBonus, sampleSellers, halfCentProducts,
    halfCentItem, halfCentRecords, jsEntries, entriesRel,
    (show arrayIndexKey "p1" = none from by decide)]
  all_goals decide

/-- C5 (amended): every monetary field of every report is produced by
`round2`, i.e. `Math.round` at the cent boundary, which rounds exact
half-cents toward +∞; this coincides with half-away-from-zero rounding for
non-negative values, but a negative exact half-cent such as -0.125 rounds
toward zero, to -0.12. -/
theorem report_rounding_spec :
    (∀ (sellers : List Seller) (products : List Product) (records : List PurchaseRecord)
      (f : LineItem → Product → ℚ) (g : ℕ → ℕ → ℚ → ℚ),
      ∀ r ∈ runAnalysis sellers products records f g,
        (∃ x, r.revenue = round2 x) ∧ (∃ y, r.profit = round2 y) ∧ ∃ z, r.bonus = round2 z)
    ∧ (∀ x : ℚ, 0 ≤ x → round2 x = roundHalfAwayFromZero2 x)
    ∧ round2 (-1 / 8) = -3 / 25
    ∧ roundHalfAwayFromZero2 (-1 / 8) = -13 / 100 := by
  refine ⟨?_, ?_, by norm_num [round2, Rat.floor_def'],
    by norm_num [roundHalfAwayFromZero2, Rat.floor_def']⟩
  · intro sellers products records f g r hr
    simp only [runAnalysis] at hr
    rcases mem_mapWithIndex _ 0 _ r hr with ⟨j, st, _, rfl⟩
    exact ⟨⟨st.revenue, rfl⟩, ⟨st.profit, rfl⟩, ⟨_, rfl⟩⟩
  · intro x hx
    rw [roundHalfAwayFromZero2, if_neg (not_lt.mpr hx)]
    rfl

/-- C5 witness: the sample report's fields are `round2` images, and
`round2` agrees with half-away-from-zero at the non-negative input 7/2. -/
theorem report_rounding_spec_witness :
    ((∃ x, (50 : ℚ) = round2 x) ∧ (∃ y, (48 : ℚ) = round2 y) ∧ ∃ z, (0 : ℚ) = round2 z)
    ∧ round2 (7 / 2) = roundHalfAwayFromZero2 (7 / 2) := by
  constructor
  · have h := report_rounding_spec.1 sampleSellers sampleProducts sampleRecords
      zeroRev zeroBonus
      { seller_id := "s1", name := "A B", revenue := 50, profit := 48, sales_count := 1,
        top_products := [("p1", 2)], bonus := 0 }
      (by rw [sample_run_eq]; exact List.mem_cons_self _ _)
    simpa using h
  · exact report_rounding_spec.2.1 (7 / 2) (by norm_num)

/-- Aggregation never changes which ids the stats carry. -/
theorem aggregateRecords_map_id (f : LineItem → Product → ℚ) (products : List Product) :
    ∀ (records : List PurchaseRecord) (stats : List SellerStat),
      (aggregateRecords f products records stats).map SellerStat.id =
        stats.map SellerStat.id
  | [], _ => rfl
  | rec :: recs, stats => by
    have h1 := updateLast_map_id (fun st => st.id == rec.seller_id)
      (processRecord f products rec) (fun st => processRecord_id f products rec st) stats
    have h2 := aggregateRecords_map_id f products recs
      (updateLast (fun st => st.id == rec.seller_id) (processRecord f products rec) stats)
    exact h2.trans h1

/-- C6: past validation the pipeline is total — `analyzeSalesData` returns
`ok` on every well-typed, non-empty dataset with both strategies supplied
— and data-quality issues are skipped silently: a record whose seller id
matches no seller, and a line item whose SKU matches no product, leave the
output unchanged. -/
theorem analyzeSalesData_total_and_skips :
    (∀ (sellers : List Seller) (products : List Product) (records : List PurchaseRecord)
      (f : LineItem → Product → ℚ) (g : ℕ → ℕ → ℚ → ℚ),
      sellers ≠ [] → products ≠ [] → records ≠ [] →
      analyzeSalesData
          (some { sellers := .arr sellers, products := .arr products,
                  purchase_records := .arr records })
          (some { calculateRevenue := some f, calculateBonus := some g })
        = .ok (runAnalysis sellers products records f g))
    ∧ (∀ (sellers : List Seller) (products : List Product)
        (records1 records2 : List PurchaseRecord) (rec : PurchaseRecord)
        (f : LineItem → Product → ℚ) (g : ℕ → ℕ → ℚ → ℚ),
        (∀ s ∈ sellers, s.id ≠ rec.seller_id) →
        runAnalysis sellers products (records1 ++ rec :: records2) f g =
          runAnalysis sellers products (records1 ++ records2) f g)
    ∧ (∀ (sellers : List Seller) (products : List Product)
        (records1 records2 : List PurchaseRecord) (rec : PurchaseRecord)
        (items1 items2 : List LineItem) (item : LineItem)
        (f : LineItem → Product → ℚ) (g : ℕ → ℕ → ℚ → ℚ),
        (∀ p ∈ products, p.sku ≠ item.sku) →
        runAnalysis sellers products
            (records1 ++ { rec with items := items1 ++ item :: items2 } :: records2) f g =
          runAnalysis sellers products
            (records1 ++ { rec with items := items1 ++ items2 } :: records2) f g) := by
  refine ⟨?_, ?_, ?_⟩
  · intro sellers products records f g hs hp hr
    rcases sellers with _ | ⟨s, ss⟩
    · exact absurd rfl hs
    rcases products with _ | ⟨p, ps⟩
    · exact absurd rfl hp
    rcases records with _ | ⟨r, rs⟩
    · exact absurd rfl hr
    rfl
  · intro sellers products records1 records2 rec f g h
    have hagg : aggregateRecords f products (records1 ++ rec :: records2)
        (initStats sellers) =
        aggregateRecords f products (records1 ++ records2) (initStats sellers) := by
      unfold aggregateRecords
      rw [List.foldl_append, List.foldl_append, List.foldl_cons]
      congr 1
      apply updateLast_of_no_match
      intro st hst
      have hids : (aggregateRecords f products records1 (initStats sellers)).map
          SellerStat.id = sellers.map Seller.id := by
        rw [aggregateRecords_map_id, initStats, List.map_map]
        exact List.map_congr_left fun s _ => rfl
      have hmem : st.id ∈ sellers.map Seller.id := by
        rw [← hids]
        exact List.mem_map_of_mem SellerStat.id hst
      rcases List.mem_map.mp hmem with ⟨s, hsmem, hsid⟩
      simp only [beq_eq_false_iff_ne, ne_eq]
      rw [← hsid]
      exact h s hsmem
    simp only [runAnalysis]
    rw [hagg]
  · intro sellers products records1 records2 rec items1 items2 item f g h
    have hnone : lookupProduct products item.sku = none := by
      rw [lookupProduct, List.find?_eq_none]
      intro p hp
      simp only [beq_eq_false_iff_ne, ne_eq, Bool.not_eq_true]
      exact h p (List.mem_reverse.mp hp)
    have hrec : ∀ st, processRecord f products { rec with items := items1 ++ item :: items2 } st =
        processRecord f products { rec with items := items1 ++ items2 } st := by
      intro st
      rw [processRecord_eq, processRecord_eq]
      have hc : recordCost products { rec with items := items1 ++ item :: items2 } =
          recordCost products { rec with items := items1 ++ items2 } := by
        simp [recordCost, itemCost, hnone]
      have hk : knownItems products { rec with items := items1 ++ item :: items2 } =
          knownItems products { rec with items := items1 ++ items2 } := by
        simp [knownItems, hnone]
      rw [hc, hk]
    have hfun : processRecord f products { rec with items := items1 ++ item :: items2 } =
        processRecord f products { rec with items := items1 ++ items2 } := funext hrec
    simp only [runAnalysis]
    unfold aggregateRecords
    rw [List.foldl_append, List.foldl_append, List.foldl_cons, List.foldl_cons, hfun]

/-- C6 witness: the sample dataset returns `ok`; prepending a record with
the unknown seller id `zz` leaves the output unchanged; inserting a line
item with the unknown SKU `nope` leaves the output unchanged. -/
theorem analyzeSalesData_total_and_skips_witness :
    analyzeSalesData
        (some { sellers := .arr sampleSellers, products := .arr sampleProducts,
                purchase_records := .arr sampleRecords })
        (some { calculateRevenue := some zeroRev, calculateBonus := some zeroBonus })
      = .ok (runAnalysis sampleSellers sampleProducts sampleRecords zeroRev zeroBonus)
    ∧ runAnalysis sampleSellers sampleProducts
        ([] ++ unknownSellerRecord :: sampleRecords) zeroRev zeroBonus
      = runAnalysis sampleSellers sampleProducts ([] ++ sampleRecords) zeroRev zeroBonus
    ∧ runAnalysis sampleSellers sampleProducts
        ([] ++ { baseRecord with items := [] ++ unknownSkuItem :: [sampleItem] } :: [])
        zeroRev zeroBonus
      = runAnalysis sampleSellers sampleProducts
        ([] ++ { baseRecord with items := [] ++ [sampleItem] } :: []) zeroRev zeroBonus :=
  ⟨analyzeSalesData_total_and_skips.1 sampleSellers sampleProducts sampleRecords
      zeroRev zeroBonus (by decide) (by decide) (by decide),
   analyzeSalesData_total_and_skips.2.1 sampleSellers sampleProducts [] sampleRecords
      unknownSellerRecord zeroRev zeroBonus (by decide),
   analyzeSalesData_total_and_skips.2.2 sampleSellers sampleProducts [] []
      baseRecord [] [sampleItem] unknownSkuItem zeroRev zeroBonus (by decide)⟩

/-- C8: for every valid dataset with distinct seller ids, the output has
exactly one report per input seller (a seller with no matching records
reporting zero revenue, profit and receipt count) and is the seller list
stably sorted by full-precision profit descending: full-precision profits
are non-increasing along the output, and reports of sellers with equal
full-precision profit keep their original seller-list order. -/
theorem report_ordering_spec (sellers : List Seller) (products : List Product)
    (records : List PurchaseRecord) (f : LineItem → Product → ℚ) (g : ℕ → ℕ → ℚ → ℚ)
    (hnd : (sellers.map Seller.id).Nodup) :
    (runAnalysis sellers products records f g).length = sellers.length
    ∧ ((runAnalysis sellers products records f g).map (fun r => r.seller_id)).Perm
        (sellers.map Seller.id)
    ∧ (∀ r ∈ runAnalysis sellers products records f g,
        records.filter (fun rec => rec.seller_id == r.seller_id) = [] →
        r.revenue = 0 ∧ r.profit = 0 ∧ r.sales_count = 0)
    ∧ (runAnalysis sellers products records f g).Pairwise (fun a b =>
        sellerProfitSpec products records b.seller_id ≤
          sellerProfitSpec products records a.seller_id)
    ∧ (runAnalysis sellers products records f g).Pairwise (fun a b =>
        sellerProfitSpec products records a.seller_id =
            sellerProfitSpec products records b.seller_id →
          (sellers.map Seller.id).indexOf a.seller_id <
            (sellers.map Seller.id).indexOf b.seller_id) := by
  have hrun := runAnalysis_eq sellers products records f g hnd
  have hmemprofit : ∀ st ∈ List.insertionSort profitRel
      (sellers.map (statOf products records)),
      st.profit = sellerProfitSpec products records st.id := by
    intro st hst
    rw [List.mem_insertionSort] at hst
    rcases List.mem_map.mp hst with ⟨s, _, rfl⟩
    rfl
  refine ⟨?_, ?_, ?_, ?_, ?_⟩
  · rw [hrun, length_mapWithIndex, List.length_insertionSort, List.length_map]
  · rw [hrun, map_mapWithIndex (makeReport g sellers.length) (fun r => r.seller_id)
      SellerStat.id (fun i a => rfl)]
    have hp2 : (sellers.map (statOf products records)).map SellerStat.id =
        sellers.map Seller.id := by
      rw [List.map_map]
      exact List.map_congr_left fun s _ => rfl
    have hperm := (List.perm_insertionSort profitRel
      (sellers.map (statOf products records))).map SellerStat.id
    rw [hp2] at hperm
    exact hperm
  · intro r hr hempty
    rcases mem_runAnalysis sellers products records f g hnd r hr with ⟨index, s, hs, rfl⟩
    have hsr : sellerRecords records s.id = [] := hempty
    have h1 : sellerRevenueSpec records s.id = 0 := by
      rw [sellerRevenueSpec, hsr]
      simp
    have h2 : sellerCostSpec products records s.id = 0 := by
      rw [sellerCostSpec, hsr]
      simp
    have h3 : sellerProfitSpec products records s.id = 0 := by
      rw [sellerProfitSpec, h1, h2]
      simp
    refine ⟨?_, ?_, ?_⟩
    · show round2 (sellerRevenueSpec records s.id) = 0
      rw [h1, round2_zero]
    · show round2 (sellerProfitSpec products records s.id) = 0
      rw [h3, round2_zero]
    · show (sellerRecords records s.id).length = 0
      rw [hsr]
      rfl
  · rw [hrun]
    have hsorted : (List.insertionSort profitRel
        (sellers.map (statOf products records))).Pairwise profitRel :=
      List.sorted_insertionSort profitRel _
    have hs2 : (List.insertionSort profitRel
        (sellers.map (statOf products records))).Pairwise (fun a b =>
          sellerProfitSpec products records b.id ≤
            sellerProfitSpec products records a.id) := by
      refine hsorted.imp_of_mem ?_
      intro a b ha hb hab
      rw [← hmemprofit a ha, ← hmemprofit b hb]
      exact hab
    exact pairwise_mapWithIndex (makeReport g sellers.length)
      (fun a b => sellerProfitSpec products records b.id ≤
        sellerProfitSpec products records a.id)
      (fun a b => sellerProfitSpec products records b.seller_id ≤
        sellerProfitSpec products records a.seller_id)
      (fun i j a b hab => hab) 0 _ hs2
  · rw [hrun]
    have hpw_sellers := pairwise_indexOf_keys Seller.id sellers hnd
    have hpw_stats : (sellers.map (statOf products records)).Pairwise (fun a b =>
        (sellers.map Seller.id).indexOf a.id < (sellers.map Seller.id).indexOf b.id) :=
      hpw_sellers.map (statOf products records) (fun a b h => h)
    have hstab := insertionSort_pairwise_stable profitRel SellerStat.profit
      (fun st => (sellers.map Seller.id).indexOf st.id)
      (fun a b hk => le_of_eq hk.symm) (sellers.map (statOf products records)) hpw_stats
    have hstab2 : (List.insertionSort profitRel
        (sellers.map (statOf products records))).Pairwise (fun a b =>
          sellerProfitSpec products records a.id = sellerProfitSpec products records b.id →
          (sellers.map Seller.id).indexOf a.id < (sellers.map Seller.id).indexOf b.id) := by
      refine hstab.imp_of_mem ?_
      intro a b ha hb hab hspec
      refine hab ?_
      rw [hmemprofit a ha, hmemprofit b hb]
      exact hspec
    exact pairwise_mapWithIndex (makeReport g sellers.length)
      (fun a b => sellerProfitSpec products records a.id =
          sellerProfitSpec products records b.id →
        (sellers.map Seller.id).indexOf a.id < (sellers.map Seller.id).indexOf b.id)
      (fun a b => sellerProfitSpec products records a.seller_id =
          sellerProfitSpec products records b.seller_id →
        (sellers.map Seller.id).indexOf a.seller_id <
          (sellers.map Seller.id).indexOf b.seller_id)
      (fun i j a b hab => hab) 0 _ hstab2

/-- C8 witness: on a two-seller dataset whose records all belong to the
first seller, the output has one report per seller, and the second
seller's report shows zero revenue, profit and receipt count. -/
theorem report_ordering_spec_witness :
    (runAnalysis sampleSellers2 sampleProducts sampleRecords zeroRev zeroBonus).length =
      sampleSellers2.length
    ∧ (({ seller_id := "s2", name := "C D", revenue := 0, profit := 0, sales_count := 0,
          top_products := [], bonus := 0 } : SellerReport).revenue = 0
        ∧ ({ seller_id := "s2", name := "C D", revenue := 0, profit := 0, sales_count := 0,
             top_products := [], bonus := 0 } : SellerReport).profit = 0
        ∧ ({ seller_id := "s2", name := "C D", revenue := 0, profit := 0, sales_count := 0,
             top_products := [], bonus := 0 } : SellerReport).sales_count = 0) :=
  ⟨(report_ordering_spec sampleSellers2 sampleProducts sampleRecords zeroRev zeroBonus
      (by decide)).1,
   (report_ordering_spec sampleSellers2 sampleProducts sampleRecords zeroRev zeroBonus
      (by decide)).2.2.1 _
      (by rw [sample2_run_eq]; exact List.mem_cons_of_mem _ (List.mem_cons_self _ _))
      (by decide)⟩

/-- C9 counterexample: `Object.entries` enumerates array-index keys such
as "2" and "10" in ascending numeric order, before insertion order.  A
seller selling SKU "10" then SKU "2" with equal quantities is emitted
with "2" first, while first-encounter (stable-by-insertion) order would
keep "10" first. -/
theorem top_products_tie_counterexample :
    analyzeSalesData
        (some { sellers := .arr sampleSellers, products := .arr numProducts,
                purchase_records := .arr numRecords })
        (some { calculateRevenue := some zeroRev, calculateBonus := some zeroBonus })
      = .ok [{ seller_id := "s1", name := "A B", revenue := 10, profit := 4,
               sales_count := 1, top_products := [("2", 3), ("10", 3)], bonus := 0 }]
    ∧ (List.insertionSort qtyRel (productsSoldSpec numProducts numRecords "s1")).take 10
      = [("10", (3 : ℚ)), ("2", 3)]
    ∧ ([("2", (3 : ℚ)), ("10", 3)] : List (String × ℚ)) ≠ [("10", 3), ("2", 3)] := by
  refine ⟨?_, ?_, by decide⟩
  · norm_num [analyzeSalesData, validateField, runAnalysis, aggregateRecords,
      processRecord, processItem, lookupProduct, updateLast, addQty, initStats, initStat,
      makeReport, mapWithIndex, round2, Rat.floor_def', List.insertionSort,
      List.orderedInsert, profitRel, qtyRel, jsEntries, entriesRel, zeroRev, zeroBonus,
      sampleSellers, numProducts, numItemA, numItemB, numRecords, List.find?,
      (show arrayIndexKey "10" = some 10 from by decide),
      (show arrayIndexKey "2" = some 2 from by decide),
      (show ("10" == "2") = false from by decide),
      (show ("2" == "10") = false from by decide)]
    all_goals decide
  · norm_num [productsSoldSpec, sellerRecords, knownItems, lookupProduct, addQty,
      List.insertionSort, List.orderedInsert, qtyRel, numProducts, numItemA, numItemB,
      numRecords, List.find?,
      (show ("10" == "2") = false from by decide),
      (show ("2" == "10") = false from by decide)]
    all_goals decide

/-- C9 (amended): for every valid dataset with distinct seller ids, each
report's `top_products` is at most 10 entries: its length is `min 10` the
number of distinct known SKUs the seller sold (so 15 distinct SKUs give
exactly 10 entries), its quantities are sorted descending, it consists of
the highest-quantity entries of the seller's cumulative per-SKU quantity
map (every omitted entry is bounded by every retained one), ties keep the
`Object.entries` enumeration order of that map — array-index SKUs first
in ascending numeric order, then the others in first-encounter order —
which coincides with first-encounter order when no SKU is an array-index
string, and each entry's quantity is the seller's cumulative quantity for
that SKU. -/
theorem top_products_spec (sellers : List Seller) (products : List Product)
    (records : List PurchaseRecord) (f : LineItem → Product → ℚ) (g : ℕ → ℕ → ℚ → ℚ)
    (hnd : (sellers.map Seller.id).Nodup) :
    ∀ r ∈ runAnalysis sellers products records f g,
      r.top_products.length = min 10 (productsSoldSpec products records r.seller_id).length
      ∧ r.top_products.Pairwise (fun a b => b.2 ≤ a.2)
      ∧ (∃ rest, (r.top_products ++ rest).Perm (productsSoldSpec products records r.seller_id)
          ∧ ∀ a ∈ r.top_products, ∀ b ∈ rest, b.2 ≤ a.2)
      ∧ r.top_products.Pairwise (fun a b => a.2 = b.2 →
          ((jsEntries (productsSoldSpec products records r.seller_id)).map Prod.fst).indexOf
              a.1 <
            ((jsEntries (productsSoldSpec products records r.seller_id)).map Prod.fst).indexOf
              b.1)
      ∧ ((∀ e ∈ productsSoldSpec products records r.seller_id, arrayIndexKey e.1 = none) →
          jsEntries (productsSoldSpec products records r.seller_id) =
            productsSoldSpec products records r.seller_id)
      ∧ ∀ e ∈ r.top_products, e.2 = skuQtySpec products records r.seller_id e.1 := by
  intro r hr
  rcases mem_runAnalysis sellers products records f g hnd r hr with ⟨index, s, hs, rfl⟩
  refine ⟨?_, ?_, ?_, ?_, ?_, ?_⟩
  · show ((List.insertionSort qtyRel
        (jsEntries (productsSoldSpec products records s.id))).take 10).length
        = min 10 (productsSoldSpec products records s.id).length
    rw [List.length_take, List.length_insertionSort, jsEntries_length]
  · exact (List.sorted_insertionSort qtyRel
      (jsEntries (productsSoldSpec products records s.id))).take
  · refine ⟨(List.insertionSort qtyRel
      (jsEntries (productsSoldSpec products records s.id))).drop 10, ?_, ?_⟩
    · show (((List.insertionSort qtyRel
            (jsEntries (productsSoldSpec products records s.id))).take 10) ++
          (List.insertionSort qtyRel
            (jsEntries (productsSoldSpec products records s.id))).drop 10).Perm
          (productsSoldSpec products records s.id)
      rw [List.take_append_drop]
      exact (List.perm_insertionSort qtyRel _).trans
        (jsEntries_perm (productsSoldSpec products records s.id))
    · intro a ha b hb
      exact (List.sorted_insertionSort qtyRel
        (jsEntries (productsSoldSpec products records s.id))).rel_of_mem_take_of_mem_drop
        ha hb
  · have hpw := pairwise_indexOf_keys Prod.fst
      (jsEntries (productsSoldSpec products records s.id))
      (jsEntries_keys_nodup _ (productsSoldSpec_keys_nodup products records s.id))
    have hstab := insertionSort_pairwise_stable qtyRel Prod.snd
      (fun e => ((jsEntries (productsSoldSpec products records s.id)).map Prod.fst).indexOf
        e.1)
      (fun a b hk => le_of_eq hk.symm)
      (jsEntries (productsSoldSpec products records s.id)) hpw
    exact hstab.take
  · intro h
    exact jsEntries_of_none _ h
  · intro e he
    have he2 : e ∈ productsSoldSpec products records s.id := by
      have h1 : e ∈ List.insertionSort qtyRel
          (jsEntries (productsSoldSpec products records s.id)) :=
        List.mem_of_mem_take he
      rw [List.mem_insertionSort] at h1
      exact ((jsEntries_perm (productsSoldSpec products records s.id)).mem_iff).mp h1
    rcases e with ⟨sku, q⟩
    exact mem_productsSoldSpec products records s.id he2

/-- C9 witness: a seller with two distinct non-numeric purchased SKUs
(quantities 5 and 2) gets both entries, sorted by quantity descending,
ties in enumeration order (here equal to first-encounter order), with
correct cumulative quantities. -/
theorem top_products_spec_witness :
    sampleReport3.top_products.length =
      min 10 (productsSoldSpec sampleProducts2 sampleRecords2 sampleReport3.seller_id).length
    ∧ sampleReport3.top_products.Pairwise (fun a b => b.2 ≤ a.2)
    ∧ (∃ rest, (sampleReport3.top_products ++ rest).Perm
          (productsSoldSpec sampleProducts2 sampleRecords2 sampleReport3.seller_id)
        ∧ ∀ a ∈ sampleReport3.top_products, ∀ b ∈ rest, b.2 ≤ a.2)
    ∧ sampleReport3.top_products.Pairwise (fun a b => a.2 = b.2 →
        ((jsEntries (productsSoldSpec sampleProducts2 sampleRecords2
            sampleReport3.seller_id)).map Prod.fst).indexOf a.1 <
          ((jsEntries (productsSoldSpec sampleProducts2 sampleRecords2
            sampleReport3.seller_id)).map Prod.fst).indexOf b.1)
    ∧ ((∀ e ∈ productsSoldSpec sampleProducts2 sampleRecords2 sampleReport3.seller_id,
          arrayIndexKey e.1 = none) →
        jsEntries (productsSoldSpec sampleProducts2 sampleRecords2 sampleReport3.seller_id) =
          productsSoldSpec sampleProducts2 sampleRecords2 sampleReport3.seller_id)
    ∧ ∀ e ∈ sampleReport3.top_products,
        e.2 = skuQtySpec sampleProducts2 sampleRecords2 sampleReport3.seller_id e.1 :=
  top_products_spec sampleSellers sampleProducts2 sampleRecords2 zeroRev zeroBonus
    (by decide) sampleReport3 (by rw [sample3_run_eq]; exact List.mem_cons_self _ _)

end SalesBonus
